import Mathlib

/-!
Shallow embedding of the agentic exploration engine of pd-scout
(src/src/core/analyzer.ts) together with its tool dispatcher
(src/core/tools.ts, `ToolRegistry`).

Modelling conventions:
* JavaScript exceptions are `Except String` values; a `try`/`catch` block
  becomes a `match` on the `Except`.
* The OpenAI client is an oracle `env : Nat → ModelResponse` giving the
  response to the n-th chat-completion request of the run (requests are
  strictly sequential; the engine logs the `tool_choice` of each request).
* The repository / context-handler collaborators are oracles returning the
  serialized payload (the string the analyzer pushes into the history) or a
  thrown error message.
* JSON.parse of the `arguments` text of a tool call is environment data too:
  a `ToolCall` carries `Except String ToolArgs`, the parse outcome.
* Token counts are `Nat`; the dollar cost computed by `calculateCost` uses
  exact rationals for the literals 0.01 and 0.03.
-/

namespace PdScout

/-- The parsed JSON argument object of a tool call.  Only `finish_analysis`
reads its fields (`opportunities`, `patterns`, `summary`); for the other
tools the arguments are consumed opaquely by the collaborator oracles.
Opportunity / pattern records are kept as opaque serialized strings. -/
structure ToolArgs where
  opportunities : List String
  patterns : List String
  summary : String
  deriving Repr, DecidableEq

/-- One entry of `message.tool_calls` in a model response: the call id, the
function name, and the outcome of `JSON.parse(toolCall.function.arguments)`
(`Except.error` = the parse throws with that message). -/
structure ToolCall where
  id : String
  name : String
  arguments : Except String ToolArgs
  deriving Repr

/-- Roles of chat messages (`ChatCompletionMessageParam.role`). -/
inductive Role where
  | system
  | user
  | assistant
  | tool
  deriving Repr, DecidableEq

/-- A conversation-history entry as built by `AgenticAnalyzer`. -/
structure Message where
  role : Role
  content : String
  tool_call_id : Option String := none
  tool_calls : List ToolCall := []
  deriving Repr

/-- `response.usage` of a chat completion. -/
structure ModelUsage where
  prompt_tokens : Nat
  completion_tokens : Nat
  total_tokens : Nat
  deriving Repr

/-- `response.choices[0].message`. -/
structure ModelMessage where
  content : String
  tool_calls : List ToolCall
  deriving Repr

/-- A chat-completion response; `message = none` models a response whose
`choices[0]?.message` is absent, `usage = none` a missing `usage` field. -/
structure ModelResponse where
  message : Option ModelMessage
  usage : Option ModelUsage
  deriving Repr

/-- The `tool_choice` field of a chat-completion request:
the string `auto` or the object pinning one function name. -/
inductive ToolChoice where
  | auto
  | function (name : String)
  deriving Repr, DecidableEq

/-- `UsageMetrics` (src/models/results.ts): cumulative token usage of a run. -/
structure UsageMetrics where
  totalTokens : Nat
  promptTokens : Nat
  completionTokens : Nat
  estimatedCost : ℚ
  rounds : Nat
  deriving Repr, DecidableEq

/-- The mutable state of `ToolRegistry`: the hidden `finishCalled` flag and
the stored `analysisResults` (null until `finish_analysis` runs). -/
structure RegistryState where
  finishCalled : Bool := false
  analysisResults : Option ToolArgs := none
  deriving Repr

/-- The optional documentation collaborator (`ContextHandler`). -/
structure ContextHandler where
  listDocuments : ToolArgs → Except String String
  readDocument : ToolArgs → Except String String

/-- The collaborators behind the dispatcher: the `RepoHandler` methods and
the optional context handler.  Each returns the serialized result string or
a thrown error message. -/
structure Collaborators where
  listFiles : ToolArgs → Except String String
  readFiles : ToolArgs → Except String String
  searchCode : ToolArgs → Except String String
  getDependencies : ToolArgs → Except String String
  contextHandler : Option ContextHandler

/-- `Engine` configuration fields that the loop reads
(`config.analysis.tokenBudget`, `config.analysis.maxRounds`). -/
structure EngineConfig where
  tokenBudget : Nat
  maxRounds : Nat
  deriving Repr

/-- The mutable state of one `AgenticAnalyzer` run: `this.history`,
`this.usage`, the registry state of `this.tools`, plus a log of the
chat-completion requests issued so far (their `tool_choice`; its length is
the number of model calls made, used to index the model oracle). -/
structure EngineState where
  history : List Message
  usage : UsageMetrics
  reg : RegistryState
  requests : List ToolChoice
  deriving Repr

/- String constants of the source. -/

/-- Tool name `list_files`. -/
def listFilesName : String := "list_files"

/-- Tool name `read_files`. -/
def readFilesName : String := "read_files"

/-- Tool name `search_code`. -/
def searchCodeName : String := "search_code"

/-- Tool name `get_dependencies`. -/
def getDependenciesName : String := "get_dependencies"

/-- Tool name `list_context_docs`. -/
def listContextDocsName : String := "list_context_docs"

/-- Tool name `read_context_doc`. -/
def readContextDocName : String := "read_context_doc"

/-- Tool name `finish_analysis`. -/
def finishAnalysisName : String := "finish_analysis"

/-- The recognized tool names of the `ToolRegistry.execute` switch. -/
def knownToolNames : List String :=
  [listFilesName, readFilesName, searchCodeName, getDependenciesName,
   listContextDocsName, readContextDocName, finishAnalysisName]

/-- Message of the error thrown on `default:` in `ToolRegistry.execute`:
`Unknown tool: ${name}`. -/
def unknownToolMsg (name : String) : String := "Unknown tool: " ++ name

/-- Message of the error thrown when a context tool runs without a context
handler. -/
def noContextMsg : String := "No context handler available"

/-- Serialization of the object with the status field `Analysis complete`,
returned by
the `finish_analysis` arm of `ToolRegistry.execute`. -/
def finishAck : String := "\x7b\"status\":\"Analysis complete\"\x7d"

/-- `ToolRegistry.execute(name, args)` (src/core/tools.ts lines 259-292):
the switch over the tool name.  Returns the updated registry state and the
serialized result, or the thrown error message.  The `finish_analysis` arm
sets `finishCalled` and overwrites `analysisResults` with the raw args. -/
def executeTool (c : Collaborators) (reg : RegistryState) (name : String)
    (args : ToolArgs) : Except String (RegistryState × String) :=
  if name = listFilesName then
    (c.listFiles args).map (fun r => (reg, r))
  else if name = readFilesName then
    (c.readFiles args).map (fun r => (reg, r))
  else if name = searchCodeName then
    (c.searchCode args).map (fun r => (reg, r))
  else if name = getDependenciesName then
    (c.getDependencies args).map (fun r => (reg, r))
  else if name = listContextDocsName then
    match c.contextHandler with
    | none => Except.error noContextMsg
    | some ch => (ch.listDocuments args).map (fun r => (reg, r))
  else if name = readContextDocName then
    match c.contextHandler with
    | none => Except.error noContextMsg
    | some ch => (ch.readDocument args).map (fun r => (reg, r))
  else if name = finishAnalysisName then
    Except.ok ({ finishCalled := true, analysisResults := some args }, finishAck)
  else
    Except.error (unknownToolMsg name)

/-- The tool-role history entry: role `tool`, the call id, the content. -/
def toolMessage (id content : String) : Message :=
  { role := Role.tool, content := content, tool_call_id := some id }

/-- Prefix the analyzer puts on a caught tool error:
`Error: ${error.message}`. -/
def errText (e : String) : String := "Error: " ++ e

/-- The body of the per-tool-call `try`/`catch` of
`AgenticAnalyzer.explorationLoop` (src/core/analyzer.ts lines 201-224):
parse the arguments, execute the tool, push the serialized result as a
tool message; on any thrown error push `Error: ...` instead.  Never
propagates an exception. -/
def processToolCall (c : Collaborators) (st : EngineState) (tc : ToolCall) :
    EngineState :=
  match tc.arguments with
  | Except.error e =>
      { st with history := st.history ++ [toolMessage tc.id (errText e)] }
  | Except.ok args =>
      match executeTool c st.reg tc.name args with
      | Except.ok (reg2, out) =>
          { st with reg := reg2,
                    history := st.history ++ [toolMessage tc.id out] }
      | Except.error e =>
          { st with history := st.history ++ [toolMessage tc.id (errText e)] }

/-- The `for (const toolCall of message.tool_calls)` loop of
`explorationLoop`: dispatch the batch in order. -/
def processCalls (c : Collaborators) : EngineState → List ToolCall → EngineState
  | st, [] => st
  | st, tc :: rest => processCalls c (processToolCall c st tc) rest

/-- `calculateCost(usage)` (analyzer.ts lines 315-323):
`(promptTokens/1000)*0.01 + (completionTokens/1000)*0.03`, the float
literals modelled as the exact rationals 1/100 and 3/100. -/
def calculateCost (p cm : Nat) : ℚ :=
  (p : ℚ) / 1000 * (1 / 100) + (cm : ℚ) / 1000 * (3 / 100)

/-- The `if (response.usage)` block (analyzer.ts lines 181-186): add the
response usage to the cumulative totals and recompute `estimatedCost` from
the updated totals; absent usage leaves everything unchanged. -/
def recordUsage (u : Option ModelUsage) (st : EngineState) : EngineState :=
  match u with
  | none => st
  | some u =>
      let p := st.usage.promptTokens + u.prompt_tokens
      let cm := st.usage.completionTokens + u.completion_tokens
      { st with usage :=
          { totalTokens := st.usage.totalTokens + u.total_tokens,
            promptTokens := p,
            completionTokens := cm,
            estimatedCost := calculateCost p cm,
            rounds := st.usage.rounds } }

/-- The assistant history entry for `this.history.push(message)`. -/
def assistantMessage (m : ModelMessage) : Message :=
  { role := Role.assistant, content := m.content, tool_calls := m.tool_calls }

/-- Result of a loop phase.  JavaScript state mutation survives a thrown
exception, so the error constructor carries the state at the throw point
(read by the `catch` of `analyze` for the partial `usage`). -/
inductive LoopResult where
  | ok (st : EngineState)
  | err (msg : String) (st : EngineState)
  deriving Repr

/-- The engine state a `LoopResult` carries. -/
def LoopResult.state : LoopResult → EngineState
  | LoopResult.ok st => st
  | LoopResult.err _ st => st

/-- Message of the error thrown when `response.choices[0]?.message` is
absent (analyzer.ts line 190). -/
def noMessageErr : String := "No message in response"

/-- One iteration body of the `for` loop of `explorationLoop`
(analyzer.ts lines 167-225), up to but excluding the termination checks:
set `usage.rounds = round + 1`, issue the chat request with
`tool_choice` set to `auto`, record usage, throw if the response has no message,
append the assistant message, and dispatch the tool-call batch. -/
def roundStep (c : Collaborators) (env : Nat → ModelResponse) (round : Nat)
    (st : EngineState) : LoopResult :=
  let st1 : EngineState := { st with usage := { st.usage with rounds := round + 1 } }
  let resp := env st1.requests.length
  let st2 : EngineState := { st1 with requests := st1.requests ++ [ToolChoice.auto] }
  let st3 := recordUsage resp.usage st2
  match resp.message with
  | none => LoopResult.err noMessageErr st3
  | some m =>
      let st4 : EngineState :=
        { st3 with history := st3.history ++ [assistantMessage m] }
      LoopResult.ok (processCalls c st4 m.tool_calls)

/-- The user message pushed by `forceCompletion` (analyzer.ts lines 256-261). -/
def forcingMessage : Message :=
  { role := Role.user,
    content :=
      "You have reached the budget/round limit. Please call finish_analysis now with whatever findings you have gathered so far. Include all opportunities you have identified, even if the analysis is not fully complete." }

/-- The `for` loop of `forceCompletion` (analyzer.ts lines 272-277):
`JSON.parse` and `execute` run with **no** surrounding `try`, so a parse or
execute error propagates; and **no** tool-result message is pushed. -/
def runForcedCalls (c : Collaborators) : List ToolCall → EngineState → LoopResult
  | [], st => LoopResult.ok st
  | tc :: rest, st =>
      match tc.arguments with
      | Except.error e => LoopResult.err e st
      | Except.ok args =>
          match executeTool c st.reg tc.name args with
          | Except.error e => LoopResult.err e st
          | Except.ok (reg2, _) => runForcedCalls c rest { st with reg := reg2 }

/-- `AgenticAnalyzer.forceCompletion` (analyzer.ts lines 253-278): push the
forcing user message, issue one request with `tool_choice` pinned to
`finish_analysis`, and execute the returned tool calls.  The response usage
is **not** recorded, `usage.rounds` is **not** incremented, and no
tool-result message is appended. -/
def forceCompletion (c : Collaborators) (env : Nat → ModelResponse)
    (st : EngineState) : LoopResult :=
  let st1 : EngineState := { st with history := st.history ++ [forcingMessage] }
  let resp := env st1.requests.length
  let st2 : EngineState :=
    { st1 with requests := st1.requests ++ [ToolChoice.function finishAnalysisName] }
  match resp.message with
  | none => LoopResult.ok st2
  | some m => runForcedCalls c m.tool_calls st2

/-- `AgenticAnalyzer.explorationLoop` (analyzer.ts lines 166-247), with the
remaining iteration count as structural fuel (`fuel = maxRounds - round`).
After the tool calls of each round: first the `isFinished()` check (return), then
the budget check `totalTokens > tokenBudget * 0.8` (stated over `Nat` as
`10 * totalTokens > 8 * tokenBudget`; the 0.8 ratio is a hardcoded literal),
which forces completion; when the rounds are exhausted, forced completion. -/
def loopFrom (cfg : EngineConfig) (c : Collaborators)
    (env : Nat → ModelResponse) : Nat → Nat → EngineState → LoopResult
  | _, 0, st => forceCompletion c env st
  | round, fuel + 1, st =>
      match roundStep c env round st with
      | LoopResult.err e st2 => LoopResult.err e st2
      | LoopResult.ok st2 =>
          if st2.reg.finishCalled then LoopResult.ok st2
          else if 10 * st2.usage.totalTokens > 8 * cfg.tokenBudget then
            forceCompletion c env st2
          else loopFrom cfg c env (round + 1) fuel st2

/-- The engine state after `this.history = [system, user]` (analyzer.ts
lines 84-87) with the zero-initialized usage and fresh tool registry. -/
def initState (sys usr : String) : EngineState :=
  { history := [ { role := Role.system, content := sys },
                 { role := Role.user, content := usr } ],
    usage := { totalTokens := 0, promptTokens := 0, completionTokens := 0,
               estimatedCost := 0, rounds := 0 },
    reg := {},
    requests := [] }

/-- The full exploration phase of a run: `loopFrom` started at round 0 with
`maxRounds` fuel from the seeded conversation. -/
def explorationLoop (cfg : EngineConfig) (c : Collaborators)
    (env : Nat → ModelResponse) (sys usr : String) : LoopResult :=
  loopFrom cfg c env 0 cfg.maxRounds (initState sys usr)

/-- Status of an `AnalysisResult`: `complete`, `incomplete` or `error`. -/
inductive AnalysisStatus where
  | complete
  | incomplete
  | error
  deriving Repr, DecidableEq

/-- The fields of the `AnalysisResult` object built by `analyze` that the
engine itself determines (results payload, usage, status, error message). -/
structure AnalysisOutcome where
  opportunities : List String
  patterns : List String
  summary : String
  usage : UsageMetrics
  status : AnalysisStatus
  errorDetail : Option String
  deriving Repr

/-- Summary placed in an error result: `Analysis failed`. -/
def analysisFailedMsg : String := "Analysis failed"

/-- Message of the TypeError raised when `analyze` destructures
`this.tools.getResults()` while it is still `null` (analyzer.ts lines
97-123: `results.opportunities` with `results === null`). -/
def nullResultsMsg : String := "TypeError: Cannot read properties of null"

/-- `AgenticAnalyzer.analyze` (analyzer.ts lines 75-160) after the prompt
seeding: run the exploration loop; on normal return read
`this.tools.getResults()` and build a `complete`-status result from its
fields — if the stored results are still `null`, that field access throws
and the `catch` builds the `error`-status result with empty arrays and
summary `Analysis failed`; a mid-loop throw lands in the same `catch`,
keeping the usage accumulated so far. -/
def analyze (cfg : EngineConfig) (c : Collaborators)
    (env : Nat → ModelResponse) (sys usr : String) : AnalysisOutcome :=
  match explorationLoop cfg c env sys usr with
  | LoopResult.ok st =>
      match st.reg.analysisResults with
      | some r =>
          { opportunities := r.opportunities, patterns := r.patterns,
            summary := r.summary, usage := st.usage,
            status := AnalysisStatus.complete, errorDetail := none }
      | none =>
          { opportunities := [], patterns := [],
            summary := analysisFailedMsg, usage := st.usage,
            status := AnalysisStatus.error,
            errorDetail := some nullResultsMsg }
  | LoopResult.err e st =>
      { opportunities := [], patterns := [],
        summary := analysisFailedMsg, usage := st.usage,
        status := AnalysisStatus.error, errorDetail := some e }

/-! ### Derived descriptions of one dispatch -/

/-- The registry state after the exploration loop handles one tool call:
unchanged unless a `finish_analysis` call with parseable arguments ran. -/
def nextReg (c : Collaborators) (reg : RegistryState) (tc : ToolCall) :
    RegistryState :=
  match tc.arguments with
  | Except.error _ => reg
  | Except.ok args =>
      match executeTool c reg tc.name args with
      | Except.ok (reg2, _) => reg2
      | Except.error _ => reg

/-- The content of the tool-result message the exploration loop appends for
one tool call: the serialized tool output, or `Error: ...` on any failure.
The output string does not depend on the registry state, so it is computed
at the default registry state. -/
def toolResultContent (c : Collaborators) (tc : ToolCall) : String :=
  match tc.arguments with
  | Except.error e => errText e
  | Except.ok args =>
      match executeTool c {} tc.name args with
      | Except.ok (_, out) => out
      | Except.error e => errText e

/-- The arguments a tool call contributes as finish payload: its parsed
arguments when it is a `finish_analysis` call that parses, else nothing. -/
def finishArgOf (tc : ToolCall) : Option ToolArgs :=
  if tc.name = finishAnalysisName then tc.arguments.toOption else none

/-- The payload retained after dispatching a batch: the arguments of the
last `finish_analysis` call in it (that parses), if any. -/
def lastFinishArgs : List ToolCall → Option ToolArgs
  | [] => none
  | tc :: rest =>
      match lastFinishArgs rest with
      | some a => some a
      | none => finishArgOf tc

/-- The registry state after dispatching a whole batch. -/
def batchReg (c : Collaborators) : RegistryState → List ToolCall → RegistryState
  | reg, [] => reg
  | reg, tc :: rest => batchReg c (nextReg c reg tc) rest

/-- Componentwise order on the accumulating fields of `UsageMetrics`
(everything except the `rounds` counter). -/
def UsageLe (u v : UsageMetrics) : Prop :=
  u.totalTokens ≤ v.totalTokens ∧ u.promptTokens ≤ v.promptTokens ∧
  u.completionTokens ≤ v.completionTokens ∧ u.estimatedCost ≤ v.estimatedCost

/-- The invariant the analyzer maintains on its usage record: the stored
cost is the cost recomputed from the stored token totals. -/
def CostInv (u : UsageMetrics) : Prop :=
  u.estimatedCost = calculateCost u.promptTokens u.completionTokens

/-- The registry invariant: once `finishCalled` is set, results are stored. -/
def RegInv (reg : RegistryState) : Prop :=
  reg.finishCalled = true → reg.analysisResults.isSome = true

/-- The combined parse-and-execute outcome of one tool call, with the output
taken at the default registry state (the output does not depend on it):
`Except.error e` holds exactly when handling the call throws `e`. -/
def dispatchOutcome (c : Collaborators) (tc : ToolCall) : Except String String :=
  tc.arguments.bind (fun args => (executeTool c {} tc.name args).map Prod.snd)

/-- Whether a history entry is a tool-role (tool-result) message. -/
def isToolRole (m : Message) : Bool :=
  match m.role with
  | Role.tool => true
  | _ => false

/-! ### Concrete fixtures used to instantiate the theorems -/

/-- Serialized empty listing returned by the benign collaborators. -/
def emptyListing : String := "[]"

/-- Free-text content of a model turn. -/
def thinkingText : String := "thinking"

/-- Summary text of the sample finish payload. -/
def doneText : String := "done"

/-- Empty string content. -/
def emptyText : String := ""

/-- Sample system prompt. -/
def sysText : String := "system prompt"

/-- Sample user prompt. -/
def usrText : String := "user prompt"

/-- Sample tool-call ids. -/
def callId1 : String := "call_1"

/-- Second sample tool-call id. -/
def callId2 : String := "call_2"

/-- Third sample tool-call id. -/
def callId3 : String := "call_3"

/-- A tool name outside the recognized set. -/
def bogusToolName : String := "bogus_tool"

/-- Error message thrown by the failing search collaborator. -/
def fileNotFoundMsg : String := "file not found"

/-- Collaborators whose repository tools all succeed with an empty listing;
no context handler configured. -/
def okCollab : Collaborators :=
  { listFiles := fun _ => Except.ok emptyListing,
    readFiles := fun _ => Except.ok emptyListing,
    searchCode := fun _ => Except.ok emptyListing,
    getDependencies := fun _ => Except.ok emptyListing,
    contextHandler := none }

/-- Like `okCollab` but `searchCode` throws `file not found`. -/
def failingCollab : Collaborators :=
  { okCollab with searchCode := fun _ => Except.error fileNotFoundMsg }

/-- A small per-round usage report (10 total tokens). -/
def smallUsage : ModelUsage :=
  { prompt_tokens := 6, completion_tokens := 4, total_tokens := 10 }

/-- A sample finish payload. -/
def payloadDone : ToolArgs :=
  { opportunities := [], patterns := [], summary := doneText }

/-- A well-formed `finish_analysis` tool call. -/
def finishCall : ToolCall :=
  { id := callId1, name := finishAnalysisName, arguments := Except.ok payloadDone }

/-- A `search_code` tool call (arguments parse fine). -/
def searchCall : ToolCall :=
  { id := callId2, name := searchCodeName, arguments := Except.ok payloadDone }

/-- A tool call whose name no switch arm recognizes. -/
def bogusCall : ToolCall :=
  { id := callId3, name := bogusToolName, arguments := Except.ok payloadDone }

/-- A model response with free text only (no tool calls), 10 tokens. -/
def freeTextResponse : ModelResponse :=
  { message := some { content := thinkingText, tool_calls := [] },
    usage := some smallUsage }

/-- A model response that calls `finish_analysis`. -/
def finishResponse : ModelResponse :=
  { message := some { content := emptyText, tool_calls := [finishCall] },
    usage := some smallUsage }

/-- A model response whose batch is a failing `search_code` call followed by
an unrecognized tool call. -/
def toolFailResponse : ModelResponse :=
  { message := some { content := emptyText, tool_calls := [searchCall, bogusCall] },
    usage := some smallUsage }

/-- Model oracle that always answers with free text. -/
def envAllFreeText : Nat → ModelResponse := fun _ => freeTextResponse

/-- Model oracle: free text in round 0, then `finish_analysis` (used to
exercise the forcing round). -/
def envForcedFinish : Nat → ModelResponse := fun n =>
  match n with
  | 0 => freeTextResponse
  | _ => finishResponse

/-- Model oracle: `finish_analysis` already in round 0. -/
def envFinishRound0 : Nat → ModelResponse := fun n =>
  match n with
  | 0 => finishResponse
  | _ => freeTextResponse

/-- Model oracle: the failing batch in round 0, then free text. -/
def envToolFail : Nat → ModelResponse := fun n =>
  match n with
  | 0 => toolFailResponse
  | _ => freeTextResponse

/-- Budget 1000, one exploration round. -/
def cfgSmall : EngineConfig := { tokenBudget := 1000, maxRounds := 1 }

/-- Budget 1000, three exploration rounds. -/
def cfgThree : EngineConfig := { tokenBudget := 1000, maxRounds := 3 }

/-- Budget 10 (one 10-token round crosses the 0.8 threshold), three rounds. -/
def cfgTiny : EngineConfig := { tokenBudget := 10, maxRounds := 3 }

/-! ### Lemmas about `executeTool` -/

lemma executeTool_unknown (c : Collaborators) (reg : RegistryState)
    {n : String} (h : n ∉ knownToolNames) (a : ToolArgs) :
    executeTool c reg n a = Except.error (unknownToolMsg n) := by
  simp only [knownToolNames, List.mem_cons, List.not_mem_nil, or_false,
    not_or] at h
  obtain ⟨h1, h2, h3, h4, h5, h6, h7⟩ := h
  simp [executeTool, h1, h2, h3, h4, h5, h6, h7]

lemma executeTool_finish (c : Collaborators) (reg : RegistryState)
    (a : ToolArgs) :
    executeTool c reg finishAnalysisName a =
      Except.ok ({ finishCalled := true, analysisResults := some a }, finishAck) := by
  rfl

lemma executeTool_snd_const (c : Collaborators) (reg reg' : RegistryState)
    (n : String) (a : ToolArgs) :
    (executeTool c reg n a).map Prod.snd =
      (executeTool c reg' n a).map Prod.snd := by
  unfold executeTool
  split_ifs <;>
    first
      | rfl
      | (cases c.listFiles a <;> rfl)
      | (cases c.readFiles a <;> rfl)
      | (cases c.searchCode a <;> rfl)
      | (cases c.getDependencies a <;> rfl)
      | (cases c.contextHandler with
          | none => rfl
          | some ch =>
              dsimp only
              first
                | (cases ch.listDocuments a <;> rfl)
                | (cases ch.readDocument a <;> rfl))

lemma map_pair_ok {x : Except String String} {reg reg2 : RegistryState}
    {out : String}
    (h : x.map (fun r => (reg, r)) = Except.ok (reg2, out)) : reg2 = reg := by
  cases x <;> simp [Except.map] at h
  exact h.1.symm

lemma executeTool_reg_cases (c : Collaborators) {reg reg2 : RegistryState}
    {n : String} {a : ToolArgs} {out : String}
    (h : executeTool c reg n a = Except.ok (reg2, out)) :
    reg2 = reg ∨
      reg2 = { finishCalled := true, analysisResults := some a } := by
  unfold executeTool at h
  split_ifs at h
  · exact Or.inl (map_pair_ok h)
  · exact Or.inl (map_pair_ok h)
  · exact Or.inl (map_pair_ok h)
  · exact Or.inl (map_pair_ok h)
  · rcases hch : c.contextHandler with _ | ch
    · rw [hch] at h
      dsimp only at h
      exact Except.noConfusion h
    · rw [hch] at h
      dsimp only at h
      exact Or.inl (map_pair_ok h)
  · rcases hch : c.contextHandler with _ | ch
    · rw [hch] at h
      dsimp only at h
      exact Except.noConfusion h
    · rw [hch] at h
      dsimp only at h
      exact Or.inl (map_pair_ok h)
  · simp only [Except.ok.injEq, Prod.mk.injEq] at h
    exact Or.inr h.1.symm

lemma executeTool_nonfinish_reg (c : Collaborators) {reg reg2 : RegistryState}
    {n : String} {a : ToolArgs} {out : String}
    (hn : n ≠ finishAnalysisName)
    (h : executeTool c reg n a = Except.ok (reg2, out)) :
    reg2 = reg := by
  unfold executeTool at h
  split_ifs at h with h1 h2 h3 h4 h5 h6
  · exact map_pair_ok h
  · exact map_pair_ok h
  · exact map_pair_ok h
  · exact map_pair_ok h
  · rcases hch : c.contextHandler with _ | ch
    · rw [hch] at h
      dsimp only at h
      exact Except.noConfusion h
    · rw [hch] at h
      dsimp only at h
      exact map_pair_ok h
  · rcases hch : c.contextHandler with _ | ch
    · rw [hch] at h
      dsimp only at h
      exact Except.noConfusion h
    · rw [hch] at h
      dsimp only at h
      exact map_pair_ok h

/-! ### Lemmas about the per-call dispatch and batch processing -/

lemma processToolCall_eq (c : Collaborators) (st : EngineState) (tc : ToolCall) :
    processToolCall c st tc =
      { st with reg := nextReg c st.reg tc,
                history := st.history ++
                  [toolMessage tc.id (toolResultContent c tc)] } := by
  cases ha : tc.arguments with
  | error e => simp [processToolCall, nextReg, toolResultContent, ha]
  | ok args =>
      have hs := executeTool_snd_const c st.reg {} tc.name args
      cases h1 : executeTool c st.reg tc.name args with
      | ok p =>
          obtain ⟨reg2, o⟩ := p
          cases h2 : executeTool c ({} : RegistryState) tc.name args with
          | ok q =>
              obtain ⟨r2, o2⟩ := q
              rw [h1, h2] at hs
              simp [Except.map] at hs
              simp [processToolCall, nextReg, toolResultContent, ha, h1, h2, hs]
          | error e2 =>
              rw [h1, h2] at hs
              simp [Except.map] at hs
      | error e =>
          cases h2 : executeTool c ({} : RegistryState) tc.name args with
          | ok q =>
              rw [h1, h2] at hs
              simp [Except.map] at hs
          | error e2 =>
              rw [h1, h2] at hs
              simp [Except.map] at hs
              simp [processToolCall, nextReg, toolResultContent, ha, h1, h2, hs]

lemma processCalls_history (c : Collaborators) (calls : List ToolCall) :
    ∀ st : EngineState, (processCalls c st calls).history =
      st.history ++
        calls.map (fun tc => toolMessage tc.id (toolResultContent c tc)) := by
  induction calls with
  | nil => intro st; simp [processCalls]
  | cons tc rest ih =>
      intro st
      simp [processCalls, ih, processToolCall_eq]

lemma processCalls_reg (c : Collaborators) (calls : List ToolCall) :
    ∀ st : EngineState, (processCalls c st calls).reg = batchReg c st.reg calls := by
  induction calls with
  | nil => intro st; rfl
  | cons tc rest ih =>
      intro st
      simp [processCalls, batchReg, ih, processToolCall_eq]

lemma processCalls_usage (c : Collaborators) (calls : List ToolCall) :
    ∀ st : EngineState, (processCalls c st calls).usage = st.usage := by
  induction calls with
  | nil => intro st; rfl
  | cons tc rest ih =>
      intro st
      simp [processCalls, ih, processToolCall_eq]

lemma processCalls_requests (c : Collaborators) (calls : List ToolCall) :
    ∀ st : EngineState, (processCalls c st calls).requests = st.requests := by
  induction calls with
  | nil => intro st; rfl
  | cons tc rest ih =>
      intro st
      simp [processCalls, ih, processToolCall_eq]

lemma nextReg_results (c : Collaborators) (reg : RegistryState) (tc : ToolCall) :
    (nextReg c reg tc).analysisResults =
      match finishArgOf tc with
      | some a => some a
      | none => reg.analysisResults := by
  cases ha : tc.arguments with
  | error e => simp [nextReg, finishArgOf, ha, Except.toOption]
  | ok args =>
      by_cases hf : tc.name = finishAnalysisName
      · simp [nextReg, finishArgOf, ha, hf, executeTool_finish, Except.toOption]
      · cases h1 : executeTool c reg tc.name args with
        | ok p =>
            obtain ⟨reg2, o⟩ := p
            have h2 := executeTool_nonfinish_reg c hf h1
            subst h2
            simp [nextReg, finishArgOf, ha, hf, h1]
        | error e => simp [nextReg, finishArgOf, ha, hf, h1]

lemma nextReg_inv (c : Collaborators) (reg : RegistryState) (tc : ToolCall)
    (h : RegInv reg) : RegInv (nextReg c reg tc) := by
  cases ha : tc.arguments with
  | error e => simpa [nextReg, ha] using h
  | ok args =>
      cases h1 : executeTool c reg tc.name args with
      | ok p =>
          obtain ⟨reg2, o⟩ := p
          rcases executeTool_reg_cases c h1 with h2 | h2 <;> subst h2
          · simpa [nextReg, ha, h1] using h
          · simp [nextReg, ha, h1, RegInv]
      | error e => simpa [nextReg, ha, h1] using h

lemma batchReg_results (c : Collaborators) (calls : List ToolCall) :
    ∀ reg : RegistryState, (batchReg c reg calls).analysisResults =
      match lastFinishArgs calls with
      | some a => some a
      | none => reg.analysisResults := by
  induction calls with
  | nil => intro reg; rfl
  | cons tc rest ih =>
      intro reg
      show (batchReg c (nextReg c reg tc) rest).analysisResults = _
      rw [ih]
      show _ = (match (match lastFinishArgs rest with
        | some a => some a
        | none => finishArgOf tc : Option ToolArgs) with
        | some a => some a
        | none => reg.analysisResults)
      cases lastFinishArgs rest with
      | some a => rfl
      | none => rw [nextReg_results]

lemma batchReg_inv (c : Collaborators) (calls : List ToolCall) :
    ∀ reg : RegistryState, RegInv reg → RegInv (batchReg c reg calls) := by
  induction calls with
  | nil => intro reg h; exact h
  | cons tc rest ih =>
      intro reg h
      exact ih _ (nextReg_inv c reg tc h)

/-! ### Usage accounting lemmas -/

lemma UsageLe.refl (u : UsageMetrics) : UsageLe u u :=
  ⟨le_refl _, le_refl _, le_refl _, le_refl _⟩

lemma UsageLe.trans {u v w : UsageMetrics} (h1 : UsageLe u v)
    (h2 : UsageLe v w) : UsageLe u w :=
  ⟨h1.1.trans h2.1, h1.2.1.trans h2.2.1, h1.2.2.1.trans h2.2.2.1,
   h1.2.2.2.trans h2.2.2.2⟩

lemma calculateCost_mono {p p' cm cm' : Nat} (hp : p ≤ p') (hc : cm ≤ cm') :
    calculateCost p cm ≤ calculateCost p' cm' := by
  have e : ∀ x : ℚ, x / 1000 * (1 / 100) = x * (1 / 100000) := by
    intro x; ring
  have e3 : ∀ x : ℚ, x / 1000 * (3 / 100) = x * (3 / 100000) := by
    intro x; ring
  have hp' : (p : ℚ) ≤ (p' : ℚ) := by exact_mod_cast hp
  have hc' : (cm : ℚ) ≤ (cm' : ℚ) := by exact_mod_cast hc
  unfold calculateCost
  rw [e, e, e3, e3]
  have h1 : (p : ℚ) * (1 / 100000) ≤ (p' : ℚ) * (1 / 100000) := by
    apply mul_le_mul_of_nonneg_right hp'
    norm_num
  have h2 : (cm : ℚ) * (3 / 100000) ≤ (cm' : ℚ) * (3 / 100000) := by
    apply mul_le_mul_of_nonneg_right hc'
    norm_num
  exact add_le_add h1 h2

lemma recordUsage_mono (u : Option ModelUsage) (st : EngineState)
    (h : CostInv st.usage) :
    UsageLe st.usage (recordUsage u st).usage ∧
      CostInv (recordUsage u st).usage := by
  cases u with
  | none => exact ⟨UsageLe.refl _, h⟩
  | some u =>
      refine ⟨⟨Nat.le_add_right _ _, Nat.le_add_right _ _, Nat.le_add_right _ _, ?_⟩, ?_⟩
      · show st.usage.estimatedCost ≤ calculateCost _ _
        rw [h]
        exact calculateCost_mono (Nat.le_add_right _ _) (Nat.le_add_right _ _)
      · rfl

lemma recordUsage_rounds (u : Option ModelUsage) (st : EngineState) :
    (recordUsage u st).usage.rounds = st.usage.rounds := by
  cases u <;> rfl

lemma recordUsage_history (u : Option ModelUsage) (st : EngineState) :
    (recordUsage u st).history = st.history := by
  cases u <;> rfl

lemma recordUsage_requests (u : Option ModelUsage) (st : EngineState) :
    (recordUsage u st).requests = st.requests := by
  cases u <;> rfl

lemma recordUsage_reg (u : Option ModelUsage) (st : EngineState) :
    (recordUsage u st).reg = st.reg := by
  cases u <;> rfl

/-! ### Round-step lemmas -/

lemma roundStep_requests (c : Collaborators) (env : Nat → ModelResponse)
    (round : Nat) (st : EngineState) :
    ((roundStep c env round st).state).requests =
      st.requests ++ [ToolChoice.auto] := by
  rcases hm : (env st.requests.length).message with _ | m
  · simp [roundStep, LoopResult.state, hm, recordUsage_requests]
  · simp [roundStep, LoopResult.state, hm, processCalls_requests,
      recordUsage_requests]

lemma roundStep_usage_eq (c : Collaborators) (env : Nat → ModelResponse)
    (round : Nat) (st : EngineState) :
    ((roundStep c env round st).state).usage =
      (recordUsage (env st.requests.length).usage
        { st with usage := { st.usage with rounds := round + 1 },
                  requests := st.requests ++ [ToolChoice.auto] }).usage := by
  rcases hm : (env st.requests.length).message with _ | m
  · simp [roundStep, LoopResult.state, hm]
  · simp [roundStep, LoopResult.state, hm, processCalls_usage]

lemma roundStep_rounds (c : Collaborators) (env : Nat → ModelResponse)
    (round : Nat) (st : EngineState) :
    ((roundStep c env round st).state).usage.rounds = round + 1 := by
  rw [roundStep_usage_eq, recordUsage_rounds]

lemma roundStep_usage_mono (c : Collaborators) (env : Nat → ModelResponse)
    (round : Nat) (st : EngineState) (h : CostInv st.usage) :
    UsageLe st.usage ((roundStep c env round st).state).usage ∧
      CostInv ((roundStep c env round st).state).usage := by
  rw [roundStep_usage_eq]
  exact recordUsage_mono (env st.requests.length).usage
    { st with usage := { st.usage with rounds := round + 1 },
              requests := st.requests ++ [ToolChoice.auto] } h

lemma roundStep_reg_inv (c : Collaborators) (env : Nat → ModelResponse)
    (round : Nat) (st : EngineState) (h : RegInv st.reg) :
    RegInv ((roundStep c env round st).state).reg := by
  rcases hm : (env st.requests.length).message with _ | m
  · simpa [roundStep, LoopResult.state, hm, recordUsage_reg] using h
  · simp [roundStep, LoopResult.state, hm, processCalls_reg, recordUsage_reg]
    exact batchReg_inv c _ _ h

/-! ### Forcing-round lemmas -/

lemma runForcedCalls_usage (c : Collaborators) (calls : List ToolCall) :
    ∀ st : EngineState,
      ((runForcedCalls c calls st).state).usage = st.usage := by
  induction calls with
  | nil => intro st; rfl
  | cons tc rest ih =>
      intro st
      rcases ha : tc.arguments with e | args
      · simp [runForcedCalls, ha, LoopResult.state]
      · rcases h1 : executeTool c st.reg tc.name args with e | ⟨reg2, o⟩
        · simp [runForcedCalls, ha, h1, LoopResult.state]
        · simp [runForcedCalls, ha, h1, ih]

lemma runForcedCalls_history (c : Collaborators) (calls : List ToolCall) :
    ∀ st : EngineState,
      ((runForcedCalls c calls st).state).history = st.history := by
  induction calls with
  | nil => intro st; rfl
  | cons tc rest ih =>
      intro st
      rcases ha : tc.arguments with e | args
      · simp [runForcedCalls, ha, LoopResult.state]
      · rcases h1 : executeTool c st.reg tc.name args with e | ⟨reg2, o⟩
        · simp [runForcedCalls, ha, h1, LoopResult.state]
        · simp [runForcedCalls, ha, h1, ih]

lemma runForcedCalls_requests (c : Collaborators) (calls : List ToolCall) :
    ∀ st : EngineState,
      ((runForcedCalls c calls st).state).requests = st.requests := by
  induction calls with
  | nil => intro st; rfl
  | cons tc rest ih =>
      intro st
      rcases ha : tc.arguments with e | args
      · simp [runForcedCalls, ha, LoopResult.state]
      · rcases h1 : executeTool c st.reg tc.name args with e | ⟨reg2, o⟩
        · simp [runForcedCalls, ha, h1, LoopResult.state]
        · simp [runForcedCalls, ha, h1, ih]

lemma runForcedCalls_inv (c : Collaborators) (calls : List ToolCall) :
    ∀ st : EngineState, RegInv st.reg →
      RegInv ((runForcedCalls c calls st).state).reg := by
  induction calls with
  | nil => intro st h; exact h
  | cons tc rest ih =>
      intro st h
      rcases ha : tc.arguments with e | args
      · simpa [runForcedCalls, ha, LoopResult.state] using h
      · rcases h1 : executeTool c st.reg tc.name args with e | ⟨reg2, o⟩
        · simpa [runForcedCalls, ha, h1, LoopResult.state] using h
        · simp only [runForcedCalls, ha, h1]
          apply ih
          rcases executeTool_reg_cases c h1 with h2 | h2 <;> subst h2
          · exact h
          · intro _; rfl

lemma force_usage (c : Collaborators) (env : Nat → ModelResponse)
    (st : EngineState) :
    ((forceCompletion c env st).state).usage = st.usage := by
  rcases hm : (env st.requests.length).message with _ | m
  · simp [forceCompletion, hm, LoopResult.state]
  · simp [forceCompletion, hm, runForcedCalls_usage]

lemma force_history (c : Collaborators) (env : Nat → ModelResponse)
    (st : EngineState) :
    ((forceCompletion c env st).state).history =
      st.history ++ [forcingMessage] := by
  rcases hm : (env st.requests.length).message with _ | m
  · simp [forceCompletion, hm, LoopResult.state]
  · simp [forceCompletion, hm, runForcedCalls_history]

lemma force_requests (c : Collaborators) (env : Nat → ModelResponse)
    (st : EngineState) :
    ((forceCompletion c env st).state).requests =
      st.requests ++ [ToolChoice.function finishAnalysisName] := by
  rcases hm : (env st.requests.length).message with _ | m
  · simp [forceCompletion, hm, LoopResult.state]
  · simp [forceCompletion, hm, runForcedCalls_requests]

lemma force_reg_inv (c : Collaborators) (env : Nat → ModelResponse)
    (st : EngineState) (h : RegInv st.reg) :
    RegInv ((forceCompletion c env st).state).reg := by
  rcases hm : (env st.requests.length).message with _ | m
  · simpa [forceCompletion, hm, LoopResult.state] using h
  · simp only [forceCompletion, hm]
    exact runForcedCalls_inv c m.tool_calls _ h

/-! ### Loop lemmas -/

lemma loopFrom_zero (cfg : EngineConfig) (c : Collaborators)
    (env : Nat → ModelResponse) (round : Nat) (st : EngineState) :
    loopFrom cfg c env round 0 st = forceCompletion c env st := rfl

lemma loopFrom_succ (cfg : EngineConfig) (c : Collaborators)
    (env : Nat → ModelResponse) (round fuel : Nat) (st : EngineState) :
    loopFrom cfg c env round (fuel + 1) st =
      match roundStep c env round st with
      | LoopResult.err e st2 => LoopResult.err e st2
      | LoopResult.ok st2 =>
          if st2.reg.finishCalled then LoopResult.ok st2
          else if 10 * st2.usage.totalTokens > 8 * cfg.tokenBudget then
            forceCompletion c env st2
          else loopFrom cfg c env (round + 1) fuel st2 := rfl

lemma loop_usage_mono (cfg : EngineConfig) (c : Collaborators)
    (env : Nat → ModelResponse) :
    ∀ (fuel round : Nat) (st : EngineState), CostInv st.usage →
      UsageLe st.usage ((loopFrom cfg c env round fuel st).state).usage := by
  intro fuel
  induction fuel with
  | zero =>
      intro round st h
      show UsageLe st.usage ((forceCompletion c env st).state).usage
      rw [force_usage]
      exact UsageLe.refl _
  | succ fuel ih =>
      intro round st h
      have hrs := roundStep_usage_mono c env round st h
      rw [loopFrom_succ]
      rcases hr : roundStep c env round st with st2 | ⟨e, st2⟩ <;>
        rw [hr] at hrs <;> dsimp only [LoopResult.state] at hrs ⊢
      · by_cases hf : st2.reg.finishCalled
        · simpa [hf, LoopResult.state] using hrs.1
        · by_cases hb : 10 * st2.usage.totalTokens > 8 * cfg.tokenBudget
          · simp only [hf, hb, if_true, if_false, Bool.false_eq_true, ite_false,
              ite_true]
            show UsageLe st.usage ((forceCompletion c env st2).state).usage
            rw [force_usage]
            exact hrs.1
          · simp only [hf, hb, Bool.false_eq_true, ite_false]
            exact hrs.1.trans (ih (round + 1) st2 hrs.2)
      · exact hrs.1

lemma loop_rounds_le (cfg : EngineConfig) (c : Collaborators)
    (env : Nat → ModelResponse) :
    ∀ (fuel round : Nat) (st : EngineState),
      ((loopFrom cfg c env round fuel st).state).usage.rounds ≤
        max st.usage.rounds (round + fuel) := by
  intro fuel
  induction fuel with
  | zero =>
      intro round st
      show ((forceCompletion c env st).state).usage.rounds ≤ _
      rw [force_usage]
      exact le_max_left _ _
  | succ fuel ih =>
      intro round st
      have hrd := roundStep_rounds c env round st
      rw [loopFrom_succ]
      rcases hr : roundStep c env round st with st2 | ⟨e, st2⟩ <;>
        rw [hr] at hrd <;> dsimp only [LoopResult.state] at hrd ⊢
      · by_cases hf : st2.reg.finishCalled
        · simp only [hf, if_true, ite_true, LoopResult.state]
          omega
        · by_cases hb : 10 * st2.usage.totalTokens > 8 * cfg.tokenBudget
          · simp only [hf, hb, Bool.false_eq_true, ite_false, ite_true]
            show ((forceCompletion c env st2).state).usage.rounds ≤ _
            rw [force_usage]
            omega
          · simp only [hf, hb, Bool.false_eq_true, ite_false]
            have := ih (round + 1) st2
            show ((loopFrom cfg c env (round + 1) fuel st2).state).usage.rounds ≤ _
            omega
      · omega

lemma loop_reg_inv (cfg : EngineConfig) (c : Collaborators)
    (env : Nat → ModelResponse) :
    ∀ (fuel round : Nat) (st : EngineState), RegInv st.reg →
      RegInv ((loopFrom cfg c env round fuel st).state).reg := by
  intro fuel
  induction fuel with
  | zero =>
      intro round st h
      exact force_reg_inv c env st h
  | succ fuel ih =>
      intro round st h
      have hrs := roundStep_reg_inv c env round st h
      rw [loopFrom_succ]
      rcases hr : roundStep c env round st with st2 | ⟨e, st2⟩ <;>
        rw [hr] at hrs <;> dsimp only [LoopResult.state] at hrs ⊢
      · by_cases hf : st2.reg.finishCalled
        · simpa [hf, LoopResult.state] using hrs
        · by_cases hb : 10 * st2.usage.totalTokens > 8 * cfg.tokenBudget
          · simp only [hf, hb, Bool.false_eq_true, ite_false, ite_true]
            exact force_reg_inv c env st2 hrs
          · simp only [hf, hb, Bool.false_eq_true, ite_false]
            exact ih (round + 1) st2 hrs
      · exact hrs

lemma analyze_usage (cfg : EngineConfig) (c : Collaborators)
    (env : Nat → ModelResponse) (sys usr : String) :
    (analyze cfg c env sys usr).usage =
      ((explorationLoop cfg c env sys usr).state).usage := by
  rcases hl : explorationLoop cfg c env sys usr with st | ⟨e, st⟩
  · rcases hr : st.reg.analysisResults with _ | r <;>
      simp [analyze, hl, hr, LoopResult.state]
  · simp [analyze, hl, LoopResult.state]

lemma dispatch_error_processToolCall (c : Collaborators) (st : EngineState)
    (tc : ToolCall) (e : String)
    (hf : dispatchOutcome c tc = Except.error e) :
    processToolCall c st tc =
      { st with history := st.history ++ [toolMessage tc.id (errText e)] } := by
  unfold dispatchOutcome at hf
  rcases ha : tc.arguments with e2 | args <;> rw [ha] at hf
  · simp [Except.bind] at hf
    subst hf
    simp [processToolCall, ha]
  · have hs := executeTool_snd_const c st.reg {} tc.name args
    rcases h1 : executeTool c st.reg tc.name args with e3 | ⟨reg2, o⟩ <;>
      rw [h1] at hs
    · simp only [Except.bind] at hf
      rw [hf] at hs
      simp [Except.map] at hs
      subst hs
      simp [processToolCall, ha, h1]
    · simp only [Except.bind] at hf
      rw [hf] at hs
      simp [Except.map] at hs

/-! ## Claim theorems -/

/-- C1 (counterexample): a run where the model response of the forcing round contains
no tool call does **not** end with status `incomplete`: with one exploration
round of free text and a forcing round of free text, `analyze` returns the
error result produced by destructuring the still-null stored results (status
`error`, empty payload, summary `Analysis failed`). -/
theorem forcing_no_toolcall_gives_error_status :
    (analyze cfgSmall okCollab envAllFreeText sysText usrText).status =
      AnalysisStatus.error
    ∧ (analyze cfgSmall okCollab envAllFreeText sysText usrText).opportunities = []
    ∧ (analyze cfgSmall okCollab envAllFreeText sysText usrText).patterns = []
    ∧ (analyze cfgSmall okCollab envAllFreeText sysText usrText).errorDetail =
        some nullResultsMsg :=
  ⟨rfl, rfl, rfl, rfl⟩

/-- C1 (amended): when the run ends without any stored finish payload — in
particular when the model response of the forcing round contains no tool call —
`analyze` returns a `status = error` result with empty opportunities and
patterns and summary `Analysis failed` (the null payload dereference lands
in the run-level catch), not a `status = incomplete` result. -/
theorem no_finish_payload_gives_error_result (cfg : EngineConfig)
    (c : Collaborators) (env : Nat → ModelResponse) (sys usr : String)
    (st : EngineState)
    (h1 : explorationLoop cfg c env sys usr = LoopResult.ok st)
    (h2 : st.reg.analysisResults = none) :
    analyze cfg c env sys usr =
      { opportunities := [], patterns := [], summary := analysisFailedMsg,
        usage := st.usage, status := AnalysisStatus.error,
        errorDetail := some nullResultsMsg } := by
  simp [analyze, h1, h2]

/-- C1 (witness for the amended claim): the concrete no-tool-call forcing
run yields exactly that error result. -/
theorem no_finish_payload_gives_error_result_witness :
    analyze cfgSmall okCollab envAllFreeText sysText usrText =
      { opportunities := [], patterns := [], summary := analysisFailedMsg,
        usage := ((explorationLoop cfgSmall okCollab envAllFreeText sysText
          usrText).state).usage,
        status := AnalysisStatus.error,
        errorDetail := some nullResultsMsg } :=
  no_finish_payload_gives_error_result cfgSmall okCollab envAllFreeText
    sysText usrText
    ((explorationLoop cfgSmall okCollab envAllFreeText sysText usrText).state)
    rfl rfl

/-- C2: handling one tool call in the exploration loop never raises to the
caller: it always returns a state appending exactly one tool-result message;
for an unrecognized name (with parseable arguments) the message is
`Error: Unknown tool: <name>` and the registry is untouched; an argument
parse failure or a collaborator error likewise becomes an
`Error: <message>` tool result with the registry untouched. -/
theorem tool_dispatch_never_raises (c : Collaborators) (st : EngineState)
    (tc : ToolCall) :
    (processToolCall c st tc =
      { st with reg := nextReg c st.reg tc,
                history := st.history ++
                  [toolMessage tc.id (toolResultContent c tc)] })
    ∧ (∀ args, tc.arguments = Except.ok args → tc.name ∉ knownToolNames →
        processToolCall c st tc =
          { st with history := st.history ++
              [toolMessage tc.id (errText (unknownToolMsg tc.name))] })
    ∧ (∀ e, tc.arguments = Except.error e →
        processToolCall c st tc =
          { st with history := st.history ++ [toolMessage tc.id (errText e)] })
    ∧ (∀ args e, tc.arguments = Except.ok args →
        executeTool c st.reg tc.name args = Except.error e →
        processToolCall c st tc =
          { st with history := st.history ++
              [toolMessage tc.id (errText e)] }) := by
  refine ⟨processToolCall_eq c st tc, ?_, ?_, ?_⟩
  · intro args ha hn
    simp [processToolCall, ha, executeTool_unknown c st.reg hn args]
  · intro e ha
    simp [processToolCall, ha]
  · intro args e ha hexec
    simp [processToolCall, ha, hexec]

/-- C2 (witness): an unrecognized tool call is answered with the
`Error: Unknown tool: bogus_tool` tool-result message, without an
exception. -/
theorem tool_dispatch_never_raises_witness :
    processToolCall okCollab (initState sysText usrText) bogusCall =
      { initState sysText usrText with
          history := (initState sysText usrText).history ++
            [toolMessage bogusCall.id (errText (unknownToolMsg bogusToolName))] } :=
  (tool_dispatch_never_raises okCollab (initState sysText usrText)
    bogusCall).2.1 payloadDone rfl (by decide)

/-- C3: if the step of round k executes a `finish_analysis` call (the returned
state has `finishCalled`), the loop returns that state at once — its request
log shows no further model request after the single `auto` request of round k —
and when this is the loop result of the run, `analyze` reports
status `complete`. -/
theorem finish_stops_loop (cfg : EngineConfig) (c : Collaborators)
    (env : Nat → ModelResponse) (sys usr : String) (round fuel : Nat)
    (st st2 : EngineState)
    (h1 : roundStep c env round st = LoopResult.ok st2)
    (h2 : st2.reg.finishCalled = true)
    (h3 : explorationLoop cfg c env sys usr = LoopResult.ok st2) :
    loopFrom cfg c env round (fuel + 1) st = LoopResult.ok st2
    ∧ st2.requests = st.requests ++ [ToolChoice.auto]
    ∧ (analyze cfg c env sys usr).status = AnalysisStatus.complete := by
  refine ⟨?_, ?_, ?_⟩
  · rw [loopFrom_succ, h1]
    simp [h2]
  · have hreq := roundStep_requests c env round st
    rw [h1] at hreq
    exact hreq
  · have h0 : RegInv (initState sys usr).reg := by
      intro hh
      simp [initState] at hh
    have hinv := loop_reg_inv cfg c env cfg.maxRounds 0 (initState sys usr) h0
    rw [show loopFrom cfg c env 0 cfg.maxRounds (initState sys usr) =
      explorationLoop cfg c env sys usr from rfl, h3] at hinv
    rcases Option.isSome_iff_exists.mp (hinv h2) with ⟨r, hr⟩
    have hr2 : st2.reg.analysisResults = some r := hr
    simp [analyze, h3, hr2]

/-- C3 (witness): with `finish_analysis` executed in round 0 of a
3-round-budget run, the loop stops after the single request and the run is
`complete`. -/
theorem finish_stops_loop_witness :
    loopFrom cfgThree okCollab envFinishRound0 0 (2 + 1)
        (initState sysText usrText) =
      LoopResult.ok
        ((roundStep okCollab envFinishRound0 0 (initState sysText usrText)).state)
    ∧ ((roundStep okCollab envFinishRound0 0
        (initState sysText usrText)).state).requests =
        (initState sysText usrText).requests ++ [ToolChoice.auto]
    ∧ (analyze cfgThree okCollab envFinishRound0 sysText usrText).status =
        AnalysisStatus.complete :=
  finish_stops_loop cfgThree okCollab envFinishRound0 sysText usrText 0 2
    (initState sysText usrText)
    ((roundStep okCollab envFinishRound0 0 (initState sysText usrText)).state)
    rfl rfl rfl

/-- C4: for every configuration and model behavior, the `rounds` field of
the returned usage metrics is at most `maxRounds + 1` (the loop in fact
never sets it above `maxRounds`; the forcing round does not increment it). -/
theorem rounds_le_maxRounds_succ (cfg : EngineConfig) (c : Collaborators)
    (env : Nat → ModelResponse) (sys usr : String) :
    (analyze cfg c env sys usr).usage.rounds ≤ cfg.maxRounds + 1 := by
  rw [analyze_usage]
  have h := loop_rounds_le cfg c env cfg.maxRounds 0 (initState sys usr)
  have h0 : (initState sys usr).usage.rounds = 0 := rfl
  show ((loopFrom cfg c env 0 cfg.maxRounds
    (initState sys usr)).state).usage.rounds ≤ _
  omega

/-- C5 (counterexample): the forcing round is **not** entered exactly when
cumulative tokens exceed `tokenBudget * 0.8`: in a run with budget 1000
whose single exploration round consumes 10 tokens (never crossing 800), the
forcing round still happens — the request log ends with a request whose tool
choice is pinned to `finish_analysis`. -/
theorem forcing_entered_under_threshold :
    ((explorationLoop cfgSmall okCollab envAllFreeText sysText
      usrText).state).requests =
      [ToolChoice.auto, ToolChoice.function finishAnalysisName]
    ∧ ((explorationLoop cfgSmall okCollab envAllFreeText sysText
        usrText).state).usage.totalTokens = 10
    ∧ ¬ 10 * 10 > 8 * cfgSmall.tokenBudget :=
  ⟨rfl, rfl, by decide⟩

/-- C5 (amended): after a round that did not finish, the engine enters the
forcing round by budget exactly when the cumulative `totalTokens` exceed
`tokenBudget * 0.8` — the 0.8 ratio is hardcoded, not a configuration field
— and the request of that forcing round pins tool choice to `finish_analysis`;
otherwise the loop continues with the next round (the forcing round is also
entered, regardless of the threshold, when `maxRounds` is exhausted). -/
theorem budget_trigger_and_pinned_choice (cfg : EngineConfig)
    (c : Collaborators) (env : Nat → ModelResponse) (round fuel : Nat)
    (st st2 : EngineState)
    (h1 : roundStep c env round st = LoopResult.ok st2)
    (h2 : st2.reg.finishCalled = false) :
    (10 * st2.usage.totalTokens > 8 * cfg.tokenBudget →
      loopFrom cfg c env round (fuel + 1) st = forceCompletion c env st2
      ∧ ((forceCompletion c env st2).state).requests =
          st2.requests ++ [ToolChoice.function finishAnalysisName])
    ∧ (¬ 10 * st2.usage.totalTokens > 8 * cfg.tokenBudget →
      loopFrom cfg c env round (fuel + 1) st =
        loopFrom cfg c env (round + 1) fuel st2) := by
  constructor
  · intro hb
    refine ⟨?_, force_requests c env st2⟩
    rw [loopFrom_succ, h1]
    simp [h2, hb]
  · intro hb
    rw [loopFrom_succ, h1]
    simp [h2, hb]

/-- C5 (witness for the amended claim): with budget 10, a 10-token round
crosses the threshold and the loop hands over to the forcing round, whose
request pins tool choice to `finish_analysis`. -/
theorem budget_trigger_and_pinned_choice_witness :
    loopFrom cfgTiny okCollab envAllFreeText 0 (2 + 1)
        (initState sysText usrText) =
      forceCompletion okCollab envAllFreeText
        ((roundStep okCollab envAllFreeText 0 (initState sysText usrText)).state)
    ∧ ((forceCompletion okCollab envAllFreeText
        ((roundStep okCollab envAllFreeText 0
          (initState sysText usrText)).state)).state).requests =
        ((roundStep okCollab envAllFreeText 0
          (initState sysText usrText)).state).requests ++
          [ToolChoice.function finishAnalysisName] :=
  (budget_trigger_and_pinned_choice cfgTiny okCollab envAllFreeText 0 2
    (initState sysText usrText)
    ((roundStep okCollab envAllFreeText 0 (initState sysText usrText)).state)
    rfl rfl).1 (by decide)

/-- C6: a batch of tool calls is dispatched in the order it appears — the
history grows by exactly one tool-result message per call, in batch order —
and the retained payload is that of the last `finish_analysis` call
processed (falling back to the previously stored payload when the batch
contains none). -/
theorem batch_order_last_finish_wins (c : Collaborators) (st : EngineState)
    (calls : List ToolCall) :
    (processCalls c st calls).history =
      st.history ++
        calls.map (fun tc => toolMessage tc.id (toolResultContent c tc))
    ∧ (processCalls c st calls).reg.analysisResults =
        (match lastFinishArgs calls with
         | some a => some a
         | none => st.reg.analysisResults) := by
  refine ⟨processCalls_history c calls st, ?_⟩
  rw [processCalls_reg]
  exact batchReg_results c calls st.reg

/-- C7 (counterexample): a run whose forcing round executes
`finish_analysis` terminates with the finish recorded but **no** tool-role
message anywhere in the final history — the forcing round does not
acknowledge the call. -/
theorem forced_finish_without_ack :
    explorationLoop cfgSmall okCollab envForcedFinish sysText usrText =
      LoopResult.ok
        ((explorationLoop cfgSmall okCollab envForcedFinish sysText
          usrText).state)
    ∧ ((explorationLoop cfgSmall okCollab envForcedFinish sysText
        usrText).state).reg.finishCalled = true
    ∧ ((explorationLoop cfgSmall okCollab envForcedFinish sysText
        usrText).state).history.filter isToolRole = [] :=
  ⟨rfl, rfl, rfl⟩

/-- C7 (amended): only exploration rounds acknowledge tool calls: the
forcing round appends exactly the forcing user instruction to the history
(never a tool-result message, even when it executes `finish_analysis`),
while the per-call handler of the exploration loop appends one tool-result message for
every call it dispatches. -/
theorem ack_only_in_exploration_rounds (c : Collaborators)
    (env : Nat → ModelResponse) (st st2 : EngineState) (tc : ToolCall) :
    ((forceCompletion c env st).state).history =
      st.history ++ [forcingMessage]
    ∧ (processToolCall c st2 tc).history =
        st2.history ++ [toolMessage tc.id (toolResultContent c tc)] := by
  refine ⟨force_history c env st, ?_⟩
  rw [processToolCall_eq]

/-- C8: a failing tool call (collaborator error or malformed arguments) is
handled inside the round: its error text becomes the tool-result
message of that call with the registry untouched, the rest of the batch is still
dispatched, every call of the batch is acknowledged, and the round then
proceeds to the normal termination checks (finish, then budget, then next
round). -/
theorem tool_failure_never_terminates (cfg : EngineConfig)
    (c : Collaborators) (env : Nat → ModelResponse) (round fuel : Nat)
    (st st2 stb : EngineState) (tc : ToolCall) (post : List ToolCall)
    (e : String)
    (hfail : dispatchOutcome c tc = Except.error e)
    (h1 : roundStep c env round st = LoopResult.ok st2) :
    (processCalls c stb (tc :: post) =
      processCalls c
        { stb with history := stb.history ++ [toolMessage tc.id (errText e)] }
        post)
    ∧ ((processCalls c stb (tc :: post)).history.length =
        stb.history.length + (tc :: post).length)
    ∧ (loopFrom cfg c env round (fuel + 1) st =
        if st2.reg.finishCalled then LoopResult.ok st2
        else if 10 * st2.usage.totalTokens > 8 * cfg.tokenBudget then
          forceCompletion c env st2
        else loopFrom cfg c env (round + 1) fuel st2) := by
  refine ⟨?_, ?_, ?_⟩
  · show processCalls c (processToolCall c stb tc) post = _
    rw [dispatch_error_processToolCall c stb tc e hfail]
  · rw [processCalls_history]
    simp
  · rw [loopFrom_succ, h1]

/-- C8 (witness): with a batch `search_code` (collaborator throws
`file not found`) then an unknown tool, the failing call only contributes
its error message, both calls are acknowledged, and the round proceeds to
the termination checks. -/
theorem tool_failure_never_terminates_witness :
    (processCalls failingCollab (initState sysText usrText)
        (searchCall :: [bogusCall]) =
      processCalls failingCollab
        { initState sysText usrText with
            history := (initState sysText usrText).history ++
              [toolMessage searchCall.id (errText fileNotFoundMsg)] }
        [bogusCall])
    ∧ ((processCalls failingCollab (initState sysText usrText)
        (searchCall :: [bogusCall])).history.length =
        (initState sysText usrText).history.length +
          (searchCall :: [bogusCall]).length)
    ∧ (loopFrom cfgSmall failingCollab envToolFail 0 (0 + 1)
        (initState sysText usrText) =
        if ((roundStep failingCollab envToolFail 0
            (initState sysText usrText)).state).reg.finishCalled then
          LoopResult.ok
            ((roundStep failingCollab envToolFail 0
              (initState sysText usrText)).state)
        else if 10 * ((roundStep failingCollab envToolFail 0
            (initState sysText usrText)).state).usage.totalTokens >
            8 * cfgSmall.tokenBudget then
          forceCompletion failingCollab envToolFail
            ((roundStep failingCollab envToolFail 0
              (initState sysText usrText)).state)
        else
          loopFrom cfgSmall failingCollab envToolFail 1 0
            ((roundStep failingCollab envToolFail 0
              (initState sysText usrText)).state)) :=
  tool_failure_never_terminates cfgSmall failingCollab envToolFail 0 0
    (initState sysText usrText)
    ((roundStep failingCollab envToolFail 0 (initState sysText usrText)).state)
    (initState sysText usrText) searchCall [bogusCall] fileNotFoundMsg
    rfl rfl

/-- C9: from any loop state satisfying the cost bookkeeping
invariant, every later state of the run has componentwise
greater-or-equal `totalTokens`, `promptTokens`, `completionTokens` and
`estimatedCost` (so for rounds i ≤ j the metrics at j dominate those at i),
while a round step sets the `rounds` field to the current round index. -/
theorem usage_monotone_rounds_index (cfg : EngineConfig) (c : Collaborators)
    (env : Nat → ModelResponse) (round fuel : Nat) (st : EngineState)
    (h : CostInv st.usage) :
    UsageLe st.usage ((loopFrom cfg c env round fuel st).state).usage
    ∧ ((roundStep c env round st).state).usage.rounds = round + 1 :=
  ⟨loop_usage_mono cfg c env fuel round st h, roundStep_rounds c env round st⟩

/-- C9 (witness): from the initial state of a one-round run, the final
metrics dominate the initial ones and the step of round 0 sets `rounds = 1`. -/
theorem usage_monotone_rounds_index_witness :
    UsageLe (initState sysText usrText).usage
      ((loopFrom cfgSmall okCollab envAllFreeText 0 1
        (initState sysText usrText)).state).usage
    ∧ ((roundStep okCollab envAllFreeText 0
        (initState sysText usrText)).state).usage.rounds = 0 + 1 :=
  usage_monotone_rounds_index cfgSmall okCollab envAllFreeText 0 1
    (initState sysText usrText) (by simp [CostInv, initState, calculateCost])

/-- C10: the forcing round leaves every field of the usage metrics
unchanged (its model call adds no tokens or cost and does not increment the
round counter), and the usage metrics `analyze` returns are exactly those of
the final loop state — they reflect only the exploration rounds. -/
theorem forcing_preserves_usage (cfg : EngineConfig) (c : Collaborators)
    (env : Nat → ModelResponse) (st : EngineState) (sys usr : String) :
    ((forceCompletion c env st).state).usage = st.usage
    ∧ (analyze cfg c env sys usr).usage =
        ((explorationLoop cfg c env sys usr).state).usage :=
  ⟨force_usage c env st, analyze_usage cfg c env sys usr⟩

end PdScout
